import Mathlib

/-!
Verification development for the `fusions.model` diffusion-model module.

The Python source is shallowly embedded as follows:

* JAX arrays of shape `(n, d)` become functions `Fin n → Fin d → ℝ`
  (`Batch n d`); all array arithmetic is written elementwise, mirroring
  NumPy broadcasting.
* JAX PRNG keys become natural numbers.  `jax.random.split` is modelled by
  `splitKey k = (2*k+1, 2*k+2)`: a deterministic injective split into two
  fresh keys, matching the tree-shaped key-derivation contract of JAX.
* Draws such as `jax.random.normal(key, shape)` and
  `jax.random.randint(key, shape, lo, hi)` are modelled by oracle
  functions from keys to values, passed in as parameters; the range
  contract of `randint` (values in `[lo, hi)`) appears as a hypothesis
  where a claim needs it.
* `jax.lax.scan` is modelled by `scanList`, which threads a carry through
  a list and stacks the per-step outputs.
* External collaborators (the flax score network's `apply`, the optax
  update, the permutation draw) are abstract total functions supplied as
  parameters, exactly as the spec treats them (declared contracts only).
* Python exceptions are modelled with `Except PyErr`; the constructors of
  `PyErr` enumerate the error classes named by the spec plus Python's
  built-in `AttributeError`, which is what an access to a missing
  attribute actually raises.
-/

noncomputable section

namespace Fusions

/-- A 2-D numeric array of shape `(n, d)`: row `i`, column `j`. -/
def Batch (n d : ℕ) : Type := Fin n → Fin d → ℝ

/-- The all-zeros batch. -/
def zeroBatch (n d : ℕ) : Batch n d := fun _ _ => 0

/-- Model of `jax.random.split(key)`: two fresh keys, first component is the
new carried key, second the step key.  Injective over the key tree. -/
def splitKey (k : ℕ) : ℕ × ℕ := (2 * k + 1, 2 * k + 2)

/-- Model of `jax.lax.scan f init xs`: threads the carry through `xs` and
returns the final carry together with the stacked per-step outputs. -/
def scanList {σ β γ : Type} (f : σ → β → σ × γ) : σ → List β → σ × List γ
  | s, [] => (s, [])
  | s, b :: bs =>
    let r := f s b
    let r2 := scanList f r.1 bs
    (r2.1, r.2 :: r2.2)

/-- The fields of `DiffusionModelBase.__init__` that the schedule and the
integrator read: `steps` (kwarg, default 1000), `beta_min = 1e-3`,
`beta_max = 3`, and the stored PRNG key `self.rng`. -/
structure DiffusionModelBase where
  steps : ℕ
  beta_min : ℝ
  beta_max : ℝ
  rng : ℕ

/-- `DiffusionModelBase.__init__` with the source's literal field values;
`steps` is the keyword argument (default 1000) and the key is
`PRNGKey(2022)`. -/
def DiffusionModelBase.init (steps : ℕ) : DiffusionModelBase :=
  ⟨steps, 1e-3, 3, 2022⟩

/-- `beta_t(t) = beta_min + t * (beta_max - beta_min)`. -/
def beta_t (m : DiffusionModelBase) (t : ℝ) : ℝ :=
  m.beta_min + t * (m.beta_max - m.beta_min)

/-- `alpha_t(t) = t * beta_min + 0.5 * t**2 * (beta_max - beta_min)`. -/
def alpha_t (m : DiffusionModelBase) (t : ℝ) : ℝ :=
  t * m.beta_min + 0.5 * t ^ 2 * (m.beta_max - m.beta_min)

/-- `mean_factor(t) = exp(-0.5 * alpha_t(t))`. -/
def mean_factor (m : DiffusionModelBase) (t : ℝ) : ℝ :=
  Real.exp (-0.5 * alpha_t m t)

/-- `var(t) = 1 - exp(-alpha_t(t))`. -/
def var (m : DiffusionModelBase) (t : ℝ) : ℝ :=
  1 - Real.exp (-(alpha_t m t))

/-- `drift(x, t) = -0.5 * beta_t(t) * x`, written on one array element. -/
def drift (m : DiffusionModelBase) (x t : ℝ) : ℝ :=
  -0.5 * beta_t m t * x

/-- `dispersion(t) = sqrt(beta_t(t))`. -/
def dispersion (m : DiffusionModelBase) (t : ℝ) : ℝ :=
  Real.sqrt (beta_t m t)

/-- `self.train_ts = jnp.arange(1, R) / (R - 1)` with `R = self.steps`:
the `steps - 1` grid points `1/(R-1), ..., (R-1)/(R-1)`. -/
def train_ts (m : DiffusionModelBase) : List ℝ :=
  (List.range (m.steps - 1)).map fun (i : ℕ) => ((i : ℝ) + 1) / ((m.steps : ℝ) - 1)

/-- The rows of `params = jnp.stack([self.train_ts[:-1], dts], axis=1)`
with `dts = self.train_ts[1:] - self.train_ts[:-1]`: pairs `(t, dt)`
scanned over by `reverse_sde`. -/
def scanParams (m : DiffusionModelBase) : List (ℝ × ℝ) :=
  List.zip (train_ts m).dropLast (List.zipWith (fun a b => a - b) (train_ts m).tail (train_ts m))

/-- A score function `score(x, t)` (the trained network bound by `train`,
here abstract): batch and scalar time to a batch of the same shape. -/
def ScoreFn (n d : ℕ) : Type := Batch n d → ℝ → Batch n d

/-- A conditioned score function `score(x, pi, t)` (nested variant). -/
def CondScoreFn (n d : ℕ) : Type := Batch n d → Batch n d → ℝ → Batch n d

/-- The scanned body `f(carry, params)` of `DiffusionModelBase.reverse_sde`:
split the carried key, evaluate drift/dispersion/score at `1 - t`, draw the
noise from the step key, take the Euler–Maruyama step, and emit the carry
as it was on entry.  (The line `t = jnp.ones((x.shape[0], 1)) * t`
broadcasts the scalar `t` to a per-row column; every row holds the same
value, so the embedding keeps `t` scalar.) -/
def reverseStepB {n d : ℕ} (m : DiffusionModelBase) (score : ScoreFn n d)
    (normal : ℕ → Batch n d) (carry : Batch n d × ℕ) (p : ℝ × ℝ) :
    (Batch n d × ℕ) × (Batch n d × ℕ) :=
  let t := p.1
  let dt := p.2
  let x := carry.1
  let rng := (splitKey carry.2).1
  let step_rng := (splitKey carry.2).2
  let disp := dispersion m (1 - t)
  let dr : Batch n d := fun i j =>
    -(drift m (x i j) (1 - t)) + disp ^ 2 * score x (1 - t) i j
  let noise := normal step_rng
  let x2 : Batch n d := fun i j =>
    x i j + dt * dr i j + Real.sqrt dt * disp * noise i j
  ((x2, rng), carry)

/-- `DiffusionModelBase.reverse_sde(initial_samples, score)`: split
`self.rng` (without storing the result back), scan the step body over the
`(t, dt)` rows, and return the final batch together with the stacked
pre-step carries `(x, rng)`.  The Python `x_t` history is the first
components of the second output. -/
def reverse_sde {n d : ℕ} (m : DiffusionModelBase) (score : ScoreFn n d)
    (normal : ℕ → Batch n d) (initial_samples : Batch n d) :
    Batch n d × List (Batch n d × ℕ) :=
  let rng := (splitKey m.rng).1
  let res := scanList (reverseStepB m score normal) (initial_samples, rng) (scanParams m)
  (res.1.1, res.2)

/-- The scanned body of `NestedDiffusionModel.reverse_sde`: identical to the
base body except the score call is `score(x, initial_samples, 1 - t)`,
with the caller's initial batch as fixed conditioning input. -/
def reverseStepN {n d : ℕ} (m : DiffusionModelBase) (score : CondScoreFn n d)
    (normal : ℕ → Batch n d) (initial_samples : Batch n d)
    (carry : Batch n d × ℕ) (p : ℝ × ℝ) :
    (Batch n d × ℕ) × (Batch n d × ℕ) :=
  let t := p.1
  let dt := p.2
  let x := carry.1
  let rng := (splitKey carry.2).1
  let step_rng := (splitKey carry.2).2
  let disp := dispersion m (1 - t)
  let dr : Batch n d := fun i j =>
    -(drift m (x i j) (1 - t)) + disp ^ 2 * score x initial_samples (1 - t) i j
  let noise := normal step_rng
  let x2 : Batch n d := fun i j =>
    x i j + dt * dr i j + Real.sqrt dt * disp * noise i j
  ((x2, rng), carry)

/-- `NestedDiffusionModel.reverse_sde(initial_samples, score)`. -/
def reverse_sdeN {n d : ℕ} (m : DiffusionModelBase) (score : CondScoreFn n d)
    (normal : ℕ → Batch n d) (initial_samples : Batch n d) :
    Batch n d × List (Batch n d × ℕ) :=
  let rng := (splitKey m.rng).1
  let res := scanList (reverseStepN m score normal initial_samples)
    (initial_samples, rng) (scanParams m)
  (res.1.1, res.2)

/-- `DiffusionModel.predict(initial_samples, history=hist)` after the score
function has been resolved: run `reverse_sde` and return `(x, x_t)` when
`hist` and `x` alone otherwise (the absent history is `none`). -/
def predictCore {n d : ℕ} (m : DiffusionModelBase) (score : ScoreFn n d)
    (normal : ℕ → Batch n d) (initial_samples : Batch n d) (hist : Bool) :
    Batch n d × Option (List (Batch n d)) :=
  let r := reverse_sde m score normal initial_samples
  if hist then (r.1, some (r.2.map Prod.fst)) else (r.1, none)

/-- One Euler–Maruyama update as the claim states it:
`x + dt*(-drift(x, 1-t) + disp^2 * score(x, 1-t)) + sqrt(dt)*disp*noise`
with `disp = dispersion(1-t)`.  Claim-side definition, to be compared with
the scanned body of `reverse_sde`. -/
def emUpdate {n d : ℕ} (m : DiffusionModelBase) (score : ScoreFn n d)
    (x : Batch n d) (t dt : ℝ) (noise : Batch n d) : Batch n d :=
  fun i j =>
    x i j
      + dt * (-(drift m (x i j) (1 - t))
          + dispersion m (1 - t) ^ 2 * score x (1 - t) i j)
      + Real.sqrt dt * dispersion m (1 - t) * noise i j

/-- The chain of carried keys: `rngChain r k` is the key carried into the
`k`-th step when the scan starts from carry key `r`. -/
def rngChain (r : ℕ) : ℕ → ℕ
  | 0 => r
  | k + 1 => (splitKey (rngChain r k)).1

/-- The sub-stream freshly split at step `k` of `reverse_sde` on an
instance whose stored key is `selfRng` (claim-side): the scan starts from
the first half of `split(self.rng)` and step `k` draws its noise from the
second half of the `k`-th carried key's split. -/
def noiseKey (selfRng k : ℕ) : ℕ :=
  (splitKey (rngChain ((splitKey selfRng).1) k)).2

/-- Final state of the claim-side Euler–Maruyama recursion along a list of
`(t, dt)` rows, starting from state `x` and carry key `r`. -/
def emLast {n d : ℕ} (m : DiffusionModelBase) (score : ScoreFn n d)
    (normal : ℕ → Batch n d) : Batch n d → ℕ → List (ℝ × ℝ) → Batch n d
  | x, _, [] => x
  | x, r, p :: ps =>
    emLast m score normal
      (emUpdate m score x p.1 p.2 (normal (splitKey r).2)) (splitKey r).1 ps

/-- Final carried key of the claim-side recursion. -/
def emRngLast : ℕ → List (ℝ × ℝ) → ℕ
  | r, [] => r
  | r, _ :: ps => emRngLast (splitKey r).1 ps

/-- Stacked pre-step `(state, key)` checkpoints of the claim-side
recursion: entry `k` is the carry before the `k`-th update. -/
def emHist {n d : ℕ} (m : DiffusionModelBase) (score : ScoreFn n d)
    (normal : ℕ → Batch n d) : Batch n d → ℕ → List (ℝ × ℝ) → List (Batch n d × ℕ)
  | _, _, [] => []
  | x, r, p :: ps =>
    (x, r) :: emHist m score normal
      (emUpdate m score x p.1 p.2 (normal (splitKey r).2)) (splitKey r).1 ps

/-- The claim-side full state sequence: the pre-step states followed by the
final state (one entry more than there are update steps). -/
def emFull {n d : ℕ} (m : DiffusionModelBase) (score : ScoreFn n d)
    (normal : ℕ → Batch n d) (x : Batch n d) (r : ℕ) (ps : List (ℝ × ℝ)) :
    List (Batch n d) :=
  (emHist m score normal x r ps).map Prod.fst ++ [emLast m score normal x r ps]

/-- The integrator's full state sequence as the source exposes it: the
history `x_t` (first components of the stacked carries) followed by the
returned final batch. -/
def fullTrajectory {n d : ℕ} (m : DiffusionModelBase) (score : ScoreFn n d)
    (normal : ℕ → Batch n d) (x0 : Batch n d) : List (Batch n d) :=
  (reverse_sde m score normal x0).2.map Prod.fst ++ [(reverse_sde m score normal x0).1]

/-- Mean over all elements of an `(n, d)` array (`jnp.mean`). -/
def meanB {n d : ℕ} (b : Batch n d) : ℝ :=
  (∑ i, ∑ j, b i j) / ((n : ℝ) * (d : ℝ))

/-- The external score network's `apply` call in training mode with
`mutable=["batch_stats"]`, abstract as the spec declares it: parameters
and batch statistics are opaque handles; the call maps the noised input
and the per-row times to the output batch and the updated statistics. -/
def ApplyFn (n d : ℕ) : Type := ℕ → ℕ → Batch n d → (Fin n → ℝ) → Batch n d × ℕ

/-- The per-row times drawn in `DiffusionModel.loss`:
`t = random.randint(step_rng, (N_batch, 1), 1, self.steps) / (self.steps - 1)`,
where `step_rng` is the second half of the first split of the incoming
key.  `randi` is the oracle for `jax.random.randint`; by the JAX contract
its values lie in `[1, steps)` (a hypothesis where a claim needs it). -/
def lossTimes {n : ℕ} (m : DiffusionModelBase) (randi : ℕ → Fin n → ℕ) (rng : ℕ) :
    Fin n → ℝ :=
  fun i => (randi (splitKey rng).2 i : ℝ) / ((m.steps : ℝ) - 1)

/-- The noise term of `DiffusionModel.loss`:
`noise = batch_prior + random.normal(step_rng, batch.shape)`, where this
`step_rng` comes from the second split of the key chain. -/
def lossNoise {n d : ℕ} (batch_prior : Batch n d) (normal : ℕ → Batch n d) (rng : ℕ) :
    Batch n d :=
  fun i j => batch_prior i j + normal (splitKey (splitKey rng).1).2 i j

/-- The noised input of `DiffusionModel.loss`:
`xt = batch * mean_coeff + noise * stds` with `mean_coeff = mean_factor(t)`
and `stds = sqrt(var(t))`, broadcast per row. -/
def lossXt {n d : ℕ} (m : DiffusionModelBase) (randi : ℕ → Fin n → ℕ)
    (normal : ℕ → Batch n d) (batch batch_prior : Batch n d) (rng : ℕ) : Batch n d :=
  fun i j => batch i j * mean_factor m (lossTimes m randi rng i)
    + lossNoise batch_prior normal rng i j * Real.sqrt (var m (lossTimes m randi rng i))

/-- `DiffusionModel.loss(params, batch, batch_prior, batch_stats, rng)`:
draw per-row times, form the noised input, evaluate the network in
training mode, and return the mean of `(noise + output*stds)**2` together
with the updated batch statistics. -/
def loss {n d : ℕ} (m : DiffusionModelBase) (applyFn : ApplyFn n d) (params : ℕ)
    (batch batch_prior : Batch n d) (batch_stats : ℕ) (randi : ℕ → Fin n → ℕ)
    (normal : ℕ → Batch n d) (rng : ℕ) : ℝ × ℕ :=
  let t := lossTimes m randi rng
  let noise := lossNoise batch_prior normal rng
  let xt := lossXt m randi normal batch batch_prior rng
  let ou := applyFn params batch_stats xt t
  (meanB (fun i j => (noise i j + ou.1 i j * Real.sqrt (var m (t i))) ^ 2), ou.2)

/-- A concrete schedule instance with three grid steps, for concrete
evaluations (`beta_min = 1`, `beta_max = 2`, stored key 0). -/
def mSteps3 : DiffusionModelBase := DiffusionModelBase.mk 3 1 2 0

/-- A concrete schedule instance with four grid steps. -/
def mSteps4 : DiffusionModelBase := DiffusionModelBase.mk 4 1 2 0

/-- The identically-zero score function on 1×1 batches. -/
def zeroScore : ScoreFn 1 1 := fun _ _ => zeroBatch 1 1

/-- The identically-zero conditioned score function on 1×1 batches. -/
def zeroCondScore : CondScoreFn 1 1 := fun _ _ _ => zeroBatch 1 1

/-- A normal-draw oracle returning the zero batch for every key. -/
def zeroNormal : ℕ → Batch 1 1 := fun _ => zeroBatch 1 1

/-- Python exception classes relevant to this module: the spec's declared
error kinds and the built-in exceptions Python itself raises here —
`AttributeError` for an access to a missing attribute and
`ZeroDivisionError` for an integer division by zero.  The source itself
defines and raises none of the spec's classes. -/
inductive PyErr where
  | attributeError
  | shapeMismatchError
  | uninitializedStateError
  | configurationError
  | zeroDivisionError
deriving DecidableEq

/-- The trainable-state aggregate (`TrainState`) as the orchestration layer
sees it: opaque parameter and batch-statistics handles plus the loss log.
`pdim` records the dimensionality the parameters were initialised for (the
last-axis size of `dummy_x` in `_init_state`); a gradient update cannot
change the parameter pytree's structure, so it preserves `pdim`. -/
structure MState where
  pdim : ℕ
  params : ℕ
  batch_stats : ℕ
  losses : List (ℝ × ℕ)

/-- A `DiffusionModel` instance over statically-shaped `(n, d)` batches:
the base schedule fields plus the trainable state and the `_predict`
attribute, which is absent (`none`) until `train` binds it. -/
structure DiffusionModelT (n d : ℕ) where
  base : DiffusionModelBase
  state : Option MState
  predictFn : Option (ScoreFn n d)

/-- `DiffusionModel.__init__`: base fields as constructed, `state = None`,
and no `_predict` attribute bound yet. -/
def DiffusionModelT.fresh (n d steps : ℕ) : DiffusionModelT n d :=
  ⟨DiffusionModelBase.init steps, none, none⟩

/-- `Model.sample_prior(n)` on an instance without an analytic prior:
`self.rng, step_rng = random.split(self.rng)` — the first half is stored
back — and the samples are standard-normal draws from the second half. -/
def sample_prior {n d : ℕ} (m : DiffusionModelT n d) (normal : ℕ → Batch n d) :
    Batch n d × DiffusionModelT n d :=
  (normal (splitKey m.base.rng).2,
    ⟨⟨m.base.steps, m.base.beta_min, m.base.beta_max, (splitKey m.base.rng).1⟩,
      m.state, m.predictFn⟩)

/-- `DiffusionModel.predict(initial_samples, history=hist)`: look up the
`_predict` attribute (its absence surfaces as an `AttributeError` before
any integration), run `reverse_sde`, and return the result together with
the instance — whose stored key `predict` does not touch. -/
def predictT {n d : ℕ} (m : DiffusionModelT n d) (normal : ℕ → Batch n d)
    (initial_samples : Batch n d) (hist : Bool) :
    Except PyErr ((Batch n d × Option (List (Batch n d))) × DiffusionModelT n d) :=
  match m.predictFn with
  | none => .error .attributeError
  | some f => .ok (predictCore m.base f normal initial_samples hist, m)

/-- A dynamically-shaped numeric array: a list of rows. -/
def Arr : Type := List (List ℝ)

/-- `a.shape[0]`: the number of rows. -/
def nrows (a : Arr) : ℕ := a.length

/-- `a.shape[-1]`: the common row length of a rectangular array, read off
the first row. -/
def lastDim (a : Arr) : ℕ := (a.headD []).length

/-- `jnp.zeros_like(a)`. -/
def zeros_like (a : Arr) : Arr := a.map fun r => r.map fun _ => 0

/-- `data[perm, :]`: select the rows of `a` at the given indices. -/
def selectRows (a : Arr) (idx : List ℕ) : Arr := idx.map fun i => a.getD i []

/-- The keyword arguments of `DiffusionModel.train` with the source's
defaults `restart=False`, `batch_size=128`, `n_epochs=1000`, `lr=1e-3`. -/
structure TrainKw where
  restart : Bool
  batch_size : ℕ
  n_epochs : ℕ
  lr : ℝ

/-- A `DiffusionModel` instance as the dynamically-shaped training
orchestration sees it: schedule fields, stored key, `ndims` (absent until
the first `train` call), trainable state, and whether `_predict` has been
bound. -/
structure DiffusionModelD where
  steps : ℕ
  beta_min : ℝ
  beta_max : ℝ
  rng : ℕ
  ndims : Option ℕ
  state : Option MState
  hasPredict : Bool

/-- `DiffusionModel.__init__` in the dynamic view. -/
def DiffusionModelD.fresh (steps : ℕ) : DiffusionModelD :=
  ⟨steps, 1e-3, 3, 2022, none, none, false⟩

/-- The external collaborators of one gradient step, abstract:
`value_and_grad(self.loss)` plus `apply_gradients` plus the
`batch_stats` replacement map the parameter and statistics handles, the two
minibatches and a key to a loss value and new handles. -/
def UpdOracle : Type := ℕ → ℕ → Arr → Arr → ℕ → ℝ × ℕ × ℕ

/-- `update_step(state, batch, batch_prior, rng)` of
`DiffusionModel._train`: gradient step and statistics replacement; the
parameter dimensionality `pdim` is untouched. -/
def update_step (upd : UpdOracle) (s : MState) (batch batch_prior : Arr) (rng : ℕ) :
    ℝ × MState :=
  let r := upd s.params s.batch_stats batch batch_prior rng
  (r.1, ⟨s.pdim, r.2.1, r.2.2, s.losses⟩)

/-- The minibatch index rows of one epoch of `DiffusionModel._train`:
`perms = jax.random.permutation(step_rng, train_size)` (oracle `permO`),
truncated to `steps_per_epoch * batch_size` entries — dropping the
incomplete batch — and reshaped into `steps_per_epoch` rows of
`batch_size` indices.  `steps_per_epoch` is the quotient
`train_size // batch_size` computed once in `_train` before the epoch
loop (and guarded there: the Python `//` raises on a zero divisor). -/
def epochBatches (permO : ℕ → ℕ → List ℕ)
    (key train_size batch_size steps_per_epoch : ℕ) : List (List ℕ) :=
  let perms := (permO key train_size).take (steps_per_epoch * batch_size)
  (List.range steps_per_epoch).map fun r => (perms.drop (r * batch_size)).take batch_size

/-- The body of the inner minibatch loop of `DiffusionModel._train`: split
the stored key, one gradient step on the selected rows, record the loss.
The carry is `(state, stored key, loss list)`. -/
def innerStep (upd : UpdOracle) (data prior_samples : Arr)
    (c : MState × ℕ × List ℝ) (perm : List ℕ) : MState × ℕ × List ℝ :=
  let batch := selectRows data perm
  let batch_prior := selectRows prior_samples perm
  let rng := (splitKey c.2.1).1
  let step_rng := (splitKey c.2.1).2
  let ls := update_step upd c.1 batch batch_prior step_rng
  (ls.2, rng, c.2.2 ++ [ls.1])

/-- One epoch of `DiffusionModel._train`: split the stored key for the
permutation draw, then iterate one gradient step per complete minibatch. -/
def trainEpoch (upd : UpdOracle) (permO : ℕ → ℕ → List ℕ)
    (data prior_samples : Arr) (batch_size steps_per_epoch : ℕ)
    (c : MState × ℕ × List ℝ) : MState × ℕ × List ℝ :=
  let rng := (splitKey c.2.1).1
  let step_rng := (splitKey c.2.1).2
  let rows := epochBatches permO step_rng (nrows data) batch_size steps_per_epoch
  rows.foldl (innerStep upd data prior_samples) (c.1, rng, c.2.2)

/-- One epoch plus the periodic loss-log append: every 100 epochs the
running mean of all losses so far is appended to `state.losses` together
with the epoch index. -/
def epochStep (upd : UpdOracle) (permO : ℕ → ℕ → List ℕ)
    (data prior_samples : Arr) (batch_size steps_per_epoch : ℕ)
    (c : MState × ℕ × List ℝ) (k : ℕ) : MState × ℕ × List ℝ :=
  let c2 := trainEpoch upd permO data prior_samples batch_size steps_per_epoch c
  if (k + 1) % 100 == 0 then
    (⟨c2.1.pdim, c2.1.params, c2.1.batch_stats,
        c2.1.losses ++ [(c2.2.2.sum / (c2.2.2.length : ℝ), k)]⟩, c2.2.1, c2.2.2)
  else c2

/-- The epoch loop of `DiffusionModel._train` once the clamp and the
`steps_per_epoch` division have succeeded: returns the final state and
stored key. -/
def trainEpochsRun (upd : UpdOracle) (permO : ℕ → ℕ → List ℕ)
    (data prior_samples : Arr) (batch_size steps_per_epoch : ℕ) (kw : TrainKw)
    (s0 : MState) (rng0 : ℕ) : MState × ℕ :=
  let res := (List.range kw.n_epochs).foldl
    (epochStep upd permO data prior_samples batch_size steps_per_epoch)
    (s0, rng0, [])
  (res.1, res.2.1)

/-- `DiffusionModel._train(data, **kwargs)`: build the prior pool
(`self.prior.rvs(train_size)` when an analytic prior is set, zeros
otherwise), silently clamp `batch_size = min(batch_size, train_size)`,
compute `steps_per_epoch = train_size // batch_size` — the Python `//`
raises `ZeroDivisionError` when the clamped batch size is 0, i.e. on an
empty data batch or a zero requested batch size — and run the epoch
loop. -/
def trainLoopD (upd : UpdOracle) (permO : ℕ → ℕ → List ℕ) (priorPool : Option Arr)
    (data : Arr) (kw : TrainKw) (s0 : MState) (rng0 : ℕ) :
    Except PyErr (MState × ℕ) :=
  let prior_samples := priorPool.getD (zeros_like data)
  let batch_size := min kw.batch_size (nrows data)
  if batch_size = 0 then .error .zeroDivisionError
  else
    .ok (trainEpochsRun upd permO data prior_samples batch_size
      (nrows data / batch_size) kw s0 rng0)

/-- `DiffusionModel._init_state(**kwargs)`: initialise parameters and
statistics from a dummy forward pass of shape `(1, ndims)` (abstract init
oracle `initO`, consuming `self.rng` without advancing it), a fresh
optimizer, and an empty loss log. -/
def initState (initO : ℕ → ℕ → ℕ × ℕ) (m : DiffusionModelD) : DiffusionModelD :=
  let p := initO m.rng (m.ndims.getD 0)
  ⟨m.steps, m.beta_min, m.beta_max, m.rng, m.ndims,
    some ⟨m.ndims.getD 0, p.1, p.2, []⟩, m.hasPredict⟩

/-- `DiffusionModel.train(data, **kwargs)`: unconditionally overwrite
`self.ndims` with `data.shape[-1]` (there is no dimensionality check),
initialise the trainable state if absent or if a restart is requested, run
`_train`, and bind `_predict`.  The source contains no `raise`; with the
external collaborators total, the only error is the `ZeroDivisionError`
propagating out of `_train` when the clamped batch size is zero. -/
def train (upd : UpdOracle) (permO : ℕ → ℕ → List ℕ) (initO : ℕ → ℕ → ℕ × ℕ)
    (priorPool : Option Arr) (m : DiffusionModelD) (data : Arr) (kw : TrainKw) :
    Except PyErr DiffusionModelD :=
  let m1 : DiffusionModelD :=
    ⟨m.steps, m.beta_min, m.beta_max, m.rng, some (lastDim data), m.state, m.hasPredict⟩
  let m2 := if m1.state.isNone || kw.restart then initState initO m1 else m1
  match m2.state with
  | none => .error .attributeError
  | some s =>
    (trainLoopD upd permO priorPool data kw s m2.rng).map fun r =>
      ⟨m2.steps, m2.beta_min, m2.beta_max, r.2, m2.ndims, some r.1, true⟩

/-- A concrete fully-trained 1×1 instance: the three-step schedule with the
zero score function bound as `_predict`. -/
def mT0 : DiffusionModelT 1 1 := ⟨mSteps3, none, some zeroScore⟩

/-- A concrete gradient-step oracle returning constant handles. -/
def upd0 : UpdOracle := fun _ _ _ _ _ => (0, 0, 0)

/-- A concrete permutation oracle: the identity permutation. -/
def perm0 : ℕ → ℕ → List ℕ := fun _ k => List.range k

/-- A concrete network-init oracle. -/
def init0 : ℕ → ℕ → ℕ × ℕ := fun _ _ => (0, 0)

/-- Concrete train kwargs with a single epoch. -/
def kwSmall : TrainKw := ⟨false, 128, 1, 1e-3⟩

/-- Concrete train kwargs requesting batch size 1000 for one epoch. -/
def kw1000 : TrainKw := ⟨false, 1000, 1, 1e-3⟩

/-- A concrete 200-row, 1-column data set. -/
def data200 : Arr := List.replicate 200 [0]

/-- A concrete trainable state whose parameters were initialised for
3-dimensional data. -/
def s3 : MState := ⟨3, 0, 0, []⟩

/-- A concrete instance after a first `train` call established
`ndims = 3`. -/
def mD3 : DiffusionModelD := ⟨1000, 1e-3, 3, 2022, some 3, some s3, true⟩

/-- Claim C6 (amended): for every schedule with `0 < beta_min < beta_max`,
`dispersion(t)² = beta_t(t)` holds exactly for every `t` at which
`beta_t(t)` is nonnegative — in particular for every `t ∈ [0, 1]`.  (The
original claim's "every t" fails where `beta_t(t) < 0`, where the square
root is not the inverse of squaring; see the counterexample.) -/
theorem C6_dispersion_squared_eq_beta (m : DiffusionModelBase) (t : ℝ)
    (hmin : 0 < m.beta_min) (hlt : m.beta_min < m.beta_max)
    (ht0 : 0 ≤ t) (ht1 : t ≤ 1) :
    dispersion m t ^ 2 = beta_t m t ∧
      ∀ s : ℝ, 0 ≤ beta_t m s → dispersion m s ^ 2 = beta_t m s := by
  have gen : ∀ s : ℝ, 0 ≤ beta_t m s → dispersion m s ^ 2 = beta_t m s := by
    intro s hs
    exact Real.sq_sqrt hs
  refine ⟨gen t ?_, gen⟩
  have hd : 0 < m.beta_max - m.beta_min := by linarith
  have : 0 ≤ t * (m.beta_max - m.beta_min) := mul_nonneg ht0 (le_of_lt hd)
  simp only [beta_t]
  linarith

/-- Witness for C6: the amended identity evaluated on the concrete schedule
`beta_min = 1`, `beta_max = 2` at `t = 0`. -/
theorem C6_dispersion_squared_eq_beta_witness :
    dispersion (DiffusionModelBase.mk 1000 1 2 0) 0 ^ 2
      = beta_t (DiffusionModelBase.mk 1000 1 2 0) 0 :=
  (C6_dispersion_squared_eq_beta (DiffusionModelBase.mk 1000 1 2 0) 0
    (by norm_num) (by norm_num) (by norm_num) (by norm_num)).1

/-- Counterexample to C6 as stated: on the schedule `beta_min = 1`,
`beta_max = 2` (which satisfies `0 < beta_min < beta_max`) at `t = -2` we
get `beta_t(-2) = -1 < 0`, and `dispersion(-2)² = 0 ≠ -1` (in the source,
`jnp.sqrt` of a negative value is NaN and the identity likewise fails). -/
theorem C6_counterexample :
    dispersion (DiffusionModelBase.mk 1000 1 2 0) (-2) ^ 2
      ≠ beta_t (DiffusionModelBase.mk 1000 1 2 0) (-2) := by
  have hb : beta_t (DiffusionModelBase.mk 1000 1 2 0) (-2) = -1 := by
    norm_num [beta_t]
  have hd : dispersion (DiffusionModelBase.mk 1000 1 2 0) (-2) = 0 := by
    rw [dispersion, hb]
    exact Real.sqrt_eq_zero_of_nonpos (by norm_num)
  rw [hd, hb]
  norm_num

/-- Claim C7: for every valid schedule (`0 < beta_min < beta_max`),
`var(0) = 0` and `mean_factor(0) = 1`, and `var` is monotonically
non-decreasing on `[0, 1]`: `0 ≤ s ≤ t ≤ 1` implies `var(s) ≤ var(t)`. -/
theorem C7_var_zero_mean_factor_one_var_monotone (m : DiffusionModelBase)
    (hmin : 0 < m.beta_min) (hlt : m.beta_min < m.beta_max)
    (s t : ℝ) (hs : 0 ≤ s) (hst : s ≤ t) (ht : t ≤ 1) :
    var m 0 = 0 ∧ mean_factor m 0 = 1 ∧ var m s ≤ var m t := by
  refine ⟨?_, ?_, ?_⟩
  · simp [var, alpha_t]
  · simp [mean_factor, alpha_t]
  · have ha : alpha_t m s ≤ alpha_t m t := by
      simp only [alpha_t]
      have hd : (0 : ℝ) ≤ m.beta_max - m.beta_min := by linarith
      nlinarith [mul_nonneg (sub_nonneg.mpr hst) (le_of_lt hmin),
        mul_nonneg (mul_nonneg (sub_nonneg.mpr hst)
          (by linarith : (0 : ℝ) ≤ t + s)) hd]
    have he : Real.exp (-(alpha_t m t)) ≤ Real.exp (-(alpha_t m s)) :=
      Real.exp_le_exp.mpr (neg_le_neg ha)
    simp only [var]
    linarith

/-- Witness for C7: the schedule `beta_min = 1`, `beta_max = 2` with
`s = 0`, `t = 1`. -/
theorem C7_var_zero_mean_factor_one_var_monotone_witness :
    var (DiffusionModelBase.mk 1000 1 2 0) 0 = 0 ∧
      mean_factor (DiffusionModelBase.mk 1000 1 2 0) 0 = 1 ∧
      var (DiffusionModelBase.mk 1000 1 2 0) 0
        ≤ var (DiffusionModelBase.mk 1000 1 2 0) 1 :=
  C7_var_zero_mean_factor_one_var_monotone (DiffusionModelBase.mk 1000 1 2 0)
    (by norm_num) (by norm_num) 0 1 (by norm_num) (by norm_num) (by norm_num)

lemma scanList_snd_length {σ β γ : Type} (f : σ → β → σ × γ) :
    ∀ (ps : List β) (s : σ), ((scanList f s ps).2).length = ps.length := by
  intro ps
  induction ps with
  | nil => intro s; rfl
  | cons p ps ih => intro s; simp [scanList, ih]

lemma scanList_reverseStepB {n d : ℕ} (m : DiffusionModelBase) (score : ScoreFn n d)
    (normal : ℕ → Batch n d) :
    ∀ (ps : List (ℝ × ℝ)) (x : Batch n d) (r : ℕ),
      scanList (reverseStepB m score normal) (x, r) ps
        = ((emLast m score normal x r ps, emRngLast r ps),
            emHist m score normal x r ps) := by
  intro ps
  induction ps with
  | nil => intro x r; rfl
  | cons p ps ih =>
    intro x r
    have hstep : reverseStepB m score normal (x, r) p
        = ((emUpdate m score x p.1 p.2 (normal (splitKey r).2), (splitKey r).1),
            (x, r)) := rfl
    simp only [scanList, hstep, ih, emLast, emRngLast, emHist]

lemma reverse_sde_eq {n d : ℕ} (m : DiffusionModelBase) (score : ScoreFn n d)
    (normal : ℕ → Batch n d) (x0 : Batch n d) :
    reverse_sde m score normal x0
      = (emLast m score normal x0 (splitKey m.rng).1 (scanParams m),
          emHist m score normal x0 (splitKey m.rng).1 (scanParams m)) := by
  simp only [reverse_sde, scanList_reverseStepB]

lemma emHist_length {n d : ℕ} (m : DiffusionModelBase) (score : ScoreFn n d)
    (normal : ℕ → Batch n d) :
    ∀ (ps : List (ℝ × ℝ)) (x : Batch n d) (r : ℕ),
      (emHist m score normal x r ps).length = ps.length := by
  intro ps
  induction ps with
  | nil => intro x r; rfl
  | cons p ps ih => intro x r; simp [emHist, ih]

lemma emFull_cons {n d : ℕ} (m : DiffusionModelBase) (score : ScoreFn n d)
    (normal : ℕ → Batch n d) (x : Batch n d) (r : ℕ) (p : ℝ × ℝ) (ps : List (ℝ × ℝ)) :
    emFull m score normal x r (p :: ps)
      = x :: emFull m score normal
          (emUpdate m score x p.1 p.2 (normal (splitKey r).2)) (splitKey r).1 ps := by
  simp [emFull, emHist, emLast]

lemma emFull_getD_zero {n d : ℕ} (m : DiffusionModelBase) (score : ScoreFn n d)
    (normal : ℕ → Batch n d) (x : Batch n d) (r : ℕ) (ps : List (ℝ × ℝ)) :
    (emFull m score normal x r ps).getD 0 (zeroBatch n d) = x := by
  cases ps with
  | nil => rfl
  | cons p ps => rw [emFull_cons]; rfl

lemma rngChain_succ_shift (r : ℕ) (k : ℕ) :
    rngChain r (k + 1) = rngChain ((splitKey r).1) k := by
  induction k with
  | zero => rfl
  | succ k ih =>
    show (splitKey (rngChain r (k + 1))).1 = (splitKey (rngChain ((splitKey r).1) k)).1
    rw [ih]

lemma emFull_step {n d : ℕ} (m : DiffusionModelBase) (score : ScoreFn n d)
    (normal : ℕ → Batch n d) :
    ∀ (ps : List (ℝ × ℝ)) (x : Batch n d) (r k : ℕ), k < ps.length →
      (emFull m score normal x r ps).getD (k + 1) (zeroBatch n d)
        = emUpdate m score ((emFull m score normal x r ps).getD k (zeroBatch n d))
            (ps.getD k (0, 0)).1 (ps.getD k (0, 0)).2
            (normal (splitKey (rngChain r k)).2) := by
  intro ps
  induction ps with
  | nil => intro x r k hk; exact absurd hk (by simp)
  | cons p ps ih =>
    intro x r k hk
    rw [emFull_cons]
    cases k with
    | zero =>
      rw [List.getD_cons_succ, List.getD_cons_zero, emFull_getD_zero,
        List.getD_cons_zero]
      rfl
    | succ k =>
      rw [List.getD_cons_succ, List.getD_cons_succ, List.getD_cons_succ,
        rngChain_succ_shift]
      exact ih _ _ k (by simpa using hk)

lemma emFull_getD_length {n d : ℕ} (m : DiffusionModelBase) (score : ScoreFn n d)
    (normal : ℕ → Batch n d) :
    ∀ (ps : List (ℝ × ℝ)) (x : Batch n d) (r : ℕ),
      (emFull m score normal x r ps).getD ps.length (zeroBatch n d)
        = emLast m score normal x r ps := by
  intro ps
  induction ps with
  | nil => intro x r; rfl
  | cons p ps ih =>
    intro x r
    rw [emFull_cons, List.length_cons, List.getD_cons_succ, ih]
    rfl

lemma fullTrajectory_eq {n d : ℕ} (m : DiffusionModelBase) (score : ScoreFn n d)
    (normal : ℕ → Batch n d) (x0 : Batch n d) :
    fullTrajectory m score normal x0
      = emFull m score normal x0 (splitKey m.rng).1 (scanParams m) := by
  simp only [fullTrajectory, emFull, reverse_sde_eq]

lemma train_ts_length (m : DiffusionModelBase) :
    (train_ts m).length = m.steps - 1 := by
  rw [train_ts, List.length_map, List.length_range]

lemma scanParams_length (m : DiffusionModelBase) :
    (scanParams m).length = m.steps - 2 := by
  simp only [scanParams, List.length_zip, List.length_dropLast,
    List.length_zipWith, List.length_tail, train_ts_length]
  omega

lemma hist_length {n d : ℕ} (m : DiffusionModelBase) (score : ScoreFn n d)
    (normal : ℕ → Batch n d) (x0 : Batch n d) :
    ((reverse_sde m score normal x0).2.map Prod.fst).length = (scanParams m).length := by
  rw [reverse_sde_eq]
  simp [emHist_length]

lemma hist_getD_eq_fullTrajectory {n d : ℕ} (m : DiffusionModelBase)
    (score : ScoreFn n d) (normal : ℕ → Batch n d) (x0 : Batch n d) (j : ℕ)
    (hj : j < (scanParams m).length) :
    ((reverse_sde m score normal x0).2.map Prod.fst).getD j (zeroBatch n d)
      = (fullTrajectory m score normal x0).getD j (zeroBatch n d) := by
  rw [fullTrajectory]
  exact (List.getD_append _ _ _ _ (by rw [hist_length]; exact hj)).symm

lemma final_eq_fullTrajectory_getD {n d : ℕ} (m : DiffusionModelBase)
    (score : ScoreFn n d) (normal : ℕ → Batch n d) (x0 : Batch n d) :
    (reverse_sde m score normal x0).1
      = (fullTrajectory m score normal x0).getD (scanParams m).length (zeroBatch n d) := by
  rw [fullTrajectory_eq, emFull_getD_length, reverse_sde_eq]

/-- Claim C1: the reverse-time integrator is Euler–Maruyama over the stored
forward grid.  Writing the integrator's state sequence as the returned
history followed by the final batch, each successive state is obtained by
the spec's update `x + dt*(-drift(x,1-t) + disp²·score(x,1-t)) +
sqrt(dt)*disp*noise` with the noise drawn from the sub-stream freshly
split at that step (`noiseKey`), the first state is the caller's batch
(steps depend only on the previous state), and the conditioned variant
equals the unconditioned integrator run with the score partially applied
to the fixed initial/conditioning batch. -/
theorem C1_reverse_sde_is_euler_maruyama {n d : ℕ} (m : DiffusionModelBase)
    (score : ScoreFn n d) (cscore : CondScoreFn n d) (normal : ℕ → Batch n d)
    (x0 : Batch n d) (k : ℕ) (hk : k < (scanParams m).length) :
    (fullTrajectory m score normal x0).getD (k + 1) (zeroBatch n d)
        = emUpdate m score ((fullTrajectory m score normal x0).getD k (zeroBatch n d))
            ((scanParams m).getD k (0, 0)).1 ((scanParams m).getD k (0, 0)).2
            (normal (noiseKey m.rng k))
      ∧ (fullTrajectory m score normal x0).getD 0 (zeroBatch n d) = x0
      ∧ reverse_sdeN m cscore normal x0
          = reverse_sde m (fun x t => cscore x x0 t) normal x0 := by
  refine ⟨?_, ?_, rfl⟩
  · rw [fullTrajectory_eq]
    exact emFull_step m score normal (scanParams m) x0 _ k hk
  · rw [fullTrajectory_eq]
    exact emFull_getD_zero m score normal x0 _ (scanParams m)

/-- Witness for C1: the concrete three-step schedule (one integration
step), zero score and noise oracles, at step `k = 0`. -/
theorem C1_reverse_sde_is_euler_maruyama_witness :
    (fullTrajectory mSteps3 zeroScore zeroNormal (zeroBatch 1 1)).getD 1 (zeroBatch 1 1)
        = emUpdate mSteps3 zeroScore
            ((fullTrajectory mSteps3 zeroScore zeroNormal (zeroBatch 1 1)).getD 0 (zeroBatch 1 1))
            ((scanParams mSteps3).getD 0 (0, 0)).1 ((scanParams mSteps3).getD 0 (0, 0)).2
            (zeroNormal (noiseKey mSteps3.rng 0))
      ∧ (fullTrajectory mSteps3 zeroScore zeroNormal (zeroBatch 1 1)).getD 0 (zeroBatch 1 1)
          = zeroBatch 1 1
      ∧ reverse_sdeN mSteps3 zeroCondScore zeroNormal (zeroBatch 1 1)
          = reverse_sde mSteps3 (fun x t => zeroCondScore x (zeroBatch 1 1) t) zeroNormal
              (zeroBatch 1 1) :=
  C1_reverse_sde_is_euler_maruyama mSteps3 zeroScore zeroCondScore zeroNormal
    (zeroBatch 1 1) 0 (by rw [scanParams_length]; norm_num [mSteps3])

/-- Claim C5 (amended): `predict` on an `(n, d)` batch returns an `(n, d)`
batch (enforced here by the type `Batch n d`); with `history = True` it
additionally returns the intermediate states, a sequence of length
`steps − 2` (not `steps − 1` as originally claimed: the scan runs over
`train_ts[:-1]`, one row fewer than the `steps − 1`-point grid); with
`history = False` only the final batch is returned and the final batch is
the same in both modes. -/
theorem C5_predict_shapes {n d : ℕ} (m : DiffusionModelBase) (score : ScoreFn n d)
    (normal : ℕ → Batch n d) (x0 : Batch n d) :
    ((predictCore m score normal x0 true).2.getD []).length = m.steps - 2
      ∧ (predictCore m score normal x0 false).2 = none
      ∧ (predictCore m score normal x0 false).1 = (predictCore m score normal x0 true).1 := by
  refine ⟨?_, rfl, rfl⟩
  show ((reverse_sde m score normal x0).2.map Prod.fst).length = m.steps - 2
  rw [hist_length, scanParams_length]

/-- Counterexample to C5 as stated: with `steps = 4` the returned history
has length `2`, not `steps − 1 = 3`. -/
theorem C5_counterexample :
    ((predictCore mSteps4 zeroScore zeroNormal (zeroBatch 1 1) true).2.getD []).length
      ≠ mSteps4.steps - 1 := by
  have h : ((predictCore mSteps4 zeroScore zeroNormal (zeroBatch 1 1) true).2.getD []).length
      = mSteps4.steps - 2 := by
    show ((reverse_sde mSteps4 zeroScore zeroNormal (zeroBatch 1 1)).2.map Prod.fst).length
        = mSteps4.steps - 2
    rw [hist_length, scanParams_length]
  rw [h]
  norm_num [mSteps4]

lemma emUpdate_zero (m : DiffusionModelBase) (t dt : ℝ) :
    emUpdate m zeroScore (zeroBatch 1 1) t dt (zeroBatch 1 1) = zeroBatch 1 1 := by
  funext i j
  simp [emUpdate, drift, zeroScore, zeroBatch]

lemma emLast_zero (m : DiffusionModelBase) :
    ∀ (ps : List (ℝ × ℝ)) (r : ℕ),
      emLast m zeroScore zeroNormal (zeroBatch 1 1) r ps = zeroBatch 1 1 := by
  intro ps
  induction ps with
  | nil => intro r; rfl
  | cons p ps ih =>
    intro r
    show emLast m zeroScore zeroNormal
        (emUpdate m zeroScore (zeroBatch 1 1) p.1 p.2 (zeroBatch 1 1)) (splitKey r).1 ps
      = zeroBatch 1 1
    rw [emUpdate_zero]
    exact ih _

/-- Claim C10 (amended): when history is requested, the `k`-th history
entry is the integrator state before the `k`-th update: the history has
exactly one entry per update step, its first entry is the caller's initial
batch unchanged, each later entry is the Euler–Maruyama update of the
previous one, and the returned final batch is the update of the last
recorded entry — positionally the trajectory lags the output by one step.
(The original "the final batch does not appear anywhere in the trajectory"
is false as a statement about values: for degenerate inputs the final
batch can coincide with a recorded entry; see the counterexample.) -/
theorem C10_history_entries_precede_updates {n d : ℕ} (m : DiffusionModelBase)
    (score : ScoreFn n d) (normal : ℕ → Batch n d) (x0 : Batch n d) (k : ℕ)
    (hk : k + 1 < (scanParams m).length) :
    ((reverse_sde m score normal x0).2.map Prod.fst).length = (scanParams m).length
      ∧ ((reverse_sde m score normal x0).2.map Prod.fst).getD 0 (zeroBatch n d) = x0
      ∧ ((reverse_sde m score normal x0).2.map Prod.fst).getD (k + 1) (zeroBatch n d)
          = emUpdate m score
              (((reverse_sde m score normal x0).2.map Prod.fst).getD k (zeroBatch n d))
              ((scanParams m).getD k (0, 0)).1 ((scanParams m).getD k (0, 0)).2
              (normal (noiseKey m.rng k))
      ∧ (reverse_sde m score normal x0).1
          = emUpdate m score
              (((reverse_sde m score normal x0).2.map Prod.fst).getD
                ((scanParams m).length - 1) (zeroBatch n d))
              ((scanParams m).getD ((scanParams m).length - 1) (0, 0)).1
              ((scanParams m).getD ((scanParams m).length - 1) (0, 0)).2
              (normal (noiseKey m.rng ((scanParams m).length - 1))) := by
  have hlen : 0 < (scanParams m).length := by omega
  refine ⟨hist_length m score normal x0, ?_, ?_, ?_⟩
  · rw [hist_getD_eq_fullTrajectory m score normal x0 0 hlen, fullTrajectory_eq]
    exact emFull_getD_zero m score normal x0 _ (scanParams m)
  · rw [hist_getD_eq_fullTrajectory m score normal x0 (k + 1) hk,
      hist_getD_eq_fullTrajectory m score normal x0 k (by omega), fullTrajectory_eq]
    exact emFull_step m score normal (scanParams m) x0 _ k (by omega)
  · rw [hist_getD_eq_fullTrajectory m score normal x0 ((scanParams m).length - 1)
      (by omega), final_eq_fullTrajectory_getD, fullTrajectory_eq]
    have hstep := emFull_step m score normal (scanParams m) x0
      ((splitKey m.rng).1) ((scanParams m).length - 1) (by omega)
    rw [show (scanParams m).length - 1 + 1 = (scanParams m).length from by omega] at hstep
    exact hstep

/-- Witness for C10: the concrete four-step schedule (two integration
steps), zero oracles, at `k = 0`. -/
theorem C10_history_entries_precede_updates_witness :
    ((reverse_sde mSteps4 zeroScore zeroNormal (zeroBatch 1 1)).2.map Prod.fst).length
        = (scanParams mSteps4).length
      ∧ ((reverse_sde mSteps4 zeroScore zeroNormal (zeroBatch 1 1)).2.map Prod.fst).getD 0
            (zeroBatch 1 1) = zeroBatch 1 1
      ∧ ((reverse_sde mSteps4 zeroScore zeroNormal (zeroBatch 1 1)).2.map Prod.fst).getD 1
            (zeroBatch 1 1)
          = emUpdate mSteps4 zeroScore
              (((reverse_sde mSteps4 zeroScore zeroNormal (zeroBatch 1 1)).2.map
                  Prod.fst).getD 0 (zeroBatch 1 1))
              ((scanParams mSteps4).getD 0 (0, 0)).1 ((scanParams mSteps4).getD 0 (0, 0)).2
              (zeroNormal (noiseKey mSteps4.rng 0))
      ∧ (reverse_sde mSteps4 zeroScore zeroNormal (zeroBatch 1 1)).1
          = emUpdate mSteps4 zeroScore
              (((reverse_sde mSteps4 zeroScore zeroNormal (zeroBatch 1 1)).2.map
                  Prod.fst).getD ((scanParams mSteps4).length - 1) (zeroBatch 1 1))
              ((scanParams mSteps4).getD ((scanParams mSteps4).length - 1) (0, 0)).1
              ((scanParams mSteps4).getD ((scanParams mSteps4).length - 1) (0, 0)).2
              (zeroNormal (noiseKey mSteps4.rng ((scanParams mSteps4).length - 1))) :=
  C10_history_entries_precede_updates mSteps4 zeroScore zeroNormal (zeroBatch 1 1) 0
    (by rw [scanParams_length]; norm_num [mSteps4])

/-- Counterexample to C10's "the final returned batch does not appear
anywhere in the trajectory": with the zero initial batch, zero score and
zero noise draws, the dynamics are stationary and the final batch equals
the recorded trajectory entry. -/
theorem C10_counterexample :
    (reverse_sde mSteps3 zeroScore zeroNormal (zeroBatch 1 1)).1
      ∈ (reverse_sde mSteps3 zeroScore zeroNormal (zeroBatch 1 1)).2.map Prod.fst := by
  rw [reverse_sde_eq, emLast_zero]
  cases hps : scanParams mSteps3 with
  | nil =>
    have h := scanParams_length mSteps3
    rw [hps] at h
    simp [mSteps3] at h
  | cons p ps =>
    simp only [emHist, List.map_cons]
    exact List.mem_cons_self _ _

/-- Claim C2: the loss draws per-row integer time indices from
`{1, …, steps−1}` and divides by `steps−1`, so each time lies in `(0, 1]`;
it forms `noise = batch_prior + fresh normal noise` and
`xt = batch*mean_factor(t) + noise*sqrt(var(t))`; and it returns the mean
over all elements of `(noise + output*sqrt(var(t)))²` together with the
updated normalization statistics, where `output` is the score network
evaluated on `xt` and `t` in training mode. -/
theorem C2_loss_denoising_score_matching {n d : ℕ} (m : DiffusionModelBase)
    (applyFn : ApplyFn n d) (params : ℕ) (batch batch_prior : Batch n d)
    (batch_stats : ℕ) (randi : ℕ → Fin n → ℕ) (normal : ℕ → Batch n d) (rng : ℕ)
    (hsteps : 2 ≤ m.steps)
    (hr : ∀ (k : ℕ) (i : Fin n), 1 ≤ randi k i ∧ randi k i < m.steps) :
    (∀ i, ∃ k : ℕ, 1 ≤ k ∧ k ≤ m.steps - 1
        ∧ lossTimes m randi rng i = (k : ℝ) / ((m.steps : ℝ) - 1))
      ∧ (∀ i, 0 < lossTimes m randi rng i ∧ lossTimes m randi rng i ≤ 1)
      ∧ lossXt m randi normal batch batch_prior rng
          = (fun i j => batch i j * mean_factor m (lossTimes m randi rng i)
              + (batch_prior i j + normal (splitKey (splitKey rng).1).2 i j)
                * Real.sqrt (var m (lossTimes m randi rng i)))
      ∧ loss m applyFn params batch batch_prior batch_stats randi normal rng
          = (meanB (fun i j =>
                (lossNoise batch_prior normal rng i j
                  + (applyFn params batch_stats
                        (lossXt m randi normal batch batch_prior rng)
                        (lossTimes m randi rng)).1 i j
                    * Real.sqrt (var m (lossTimes m randi rng i))) ^ 2),
              (applyFn params batch_stats
                (lossXt m randi normal batch batch_prior rng)
                (lossTimes m randi rng)).2) := by
  have hden : (0 : ℝ) < (m.steps : ℝ) - 1 := by
    have h2 : (2 : ℝ) ≤ (m.steps : ℝ) := by exact_mod_cast hsteps
    linarith
  refine ⟨?_, ?_, rfl, rfl⟩
  · intro i
    refine ⟨randi (splitKey rng).2 i, (hr _ i).1, ?_, rfl⟩
    have := (hr (splitKey rng).2 i).2
    omega
  · intro i
    have h1 : (1 : ℝ) ≤ (randi (splitKey rng).2 i : ℝ) := by
      exact_mod_cast (hr (splitKey rng).2 i).1
    have hub : (randi (splitKey rng).2 i : ℝ) + 1 ≤ (m.steps : ℝ) := by
      exact_mod_cast (hr (splitKey rng).2 i).2
    constructor
    · exact div_pos (by linarith) hden
    · show (randi (splitKey rng).2 i : ℝ) / ((m.steps : ℝ) - 1) ≤ 1
      rw [div_le_one hden]
      linarith

/-- Witness for C2: the three-step schedule with the constant index oracle
`randi = 1`, showing the drawn time lies in `(0, 1]`. -/
theorem C2_loss_denoising_score_matching_witness :
    0 < lossTimes mSteps3 (fun _ _ => 1) 0 (0 : Fin 1)
      ∧ lossTimes mSteps3 (fun _ _ => 1) 0 (0 : Fin 1) ≤ 1 :=
  (C2_loss_denoising_score_matching mSteps3 (fun _ _ _ _ => (zeroBatch 1 1, 0)) 0
    (zeroBatch 1 1) (zeroBatch 1 1) 0 (fun _ _ => 1) zeroNormal 0
    (by norm_num [mSteps3])
    (fun k i => ⟨le_refl 1, by norm_num [mSteps3]⟩)).2.1 (0 : Fin 1)

lemma innerStep_fold_pdim (upd : UpdOracle) (data prior : Arr) :
    ∀ (rows : List (List ℕ)) (c : MState × ℕ × List ℝ),
      ((rows.foldl (innerStep upd data prior) c).1).pdim = c.1.pdim := by
  intro rows
  induction rows with
  | nil => intro c; rfl
  | cons r rs ih =>
    intro c
    rw [List.foldl_cons, ih]
    rfl

lemma trainEpoch_pdim (upd : UpdOracle) (permO : ℕ → ℕ → List ℕ)
    (data prior : Arr) (bs spe : ℕ) (c : MState × ℕ × List ℝ) :
    (trainEpoch upd permO data prior bs spe c).1.pdim = c.1.pdim :=
  innerStep_fold_pdim upd data prior _ (c.1, (splitKey c.2.1).1, c.2.2)

lemma epochStep_pdim (upd : UpdOracle) (permO : ℕ → ℕ → List ℕ)
    (data prior : Arr) (bs spe : ℕ) (c : MState × ℕ × List ℝ) (k : ℕ) :
    (epochStep upd permO data prior bs spe c k).1.pdim = c.1.pdim := by
  simp only [epochStep]
  split
  · exact trainEpoch_pdim upd permO data prior bs spe c
  · exact trainEpoch_pdim upd permO data prior bs spe c

lemma epochsFold_pdim (upd : UpdOracle) (permO : ℕ → ℕ → List ℕ)
    (data prior : Arr) (bs spe : ℕ) :
    ∀ (ks : List ℕ) (c : MState × ℕ × List ℝ),
      ((ks.foldl (epochStep upd permO data prior bs spe) c).1).pdim = c.1.pdim := by
  intro ks
  induction ks with
  | nil => intro c; rfl
  | cons k ks ih =>
    intro c
    rw [List.foldl_cons, ih, epochStep_pdim]

lemma trainEpochsRun_pdim (upd : UpdOracle) (permO : ℕ → ℕ → List ℕ)
    (data prior : Arr) (bs spe : ℕ) (kw : TrainKw) (s0 : MState) (rng0 : ℕ) :
    (trainEpochsRun upd permO data prior bs spe kw s0 rng0).1.pdim = s0.pdim :=
  epochsFold_pdim upd permO data prior bs spe (List.range kw.n_epochs) (s0, rng0, [])

lemma trainLoopD_eq_ok (upd : UpdOracle) (permO : ℕ → ℕ → List ℕ)
    (priorPool : Option Arr) (data : Arr) (kw : TrainKw) (s0 : MState) (rng0 : ℕ)
    (hbs : min kw.batch_size (nrows data) ≠ 0) :
    trainLoopD upd permO priorPool data kw s0 rng0
      = .ok (trainEpochsRun upd permO data (priorPool.getD (zeros_like data))
          (min kw.batch_size (nrows data))
          (nrows data / min kw.batch_size (nrows data)) kw s0 rng0) := by
  simp only [trainLoopD]
  rw [if_neg hbs]

lemma innerStep_fold_rng_le (upd : UpdOracle) (data prior : Arr) :
    ∀ (rows : List (List ℕ)) (c : MState × ℕ × List ℝ),
      c.2.1 ≤ ((rows.foldl (innerStep upd data prior) c).2).1 := by
  intro rows
  induction rows with
  | nil => intro c; exact le_refl _
  | cons r rs ih =>
    intro c
    rw [List.foldl_cons]
    refine le_trans ?_ (ih _)
    show c.2.1 ≤ (splitKey c.2.1).1
    simp only [splitKey]
    omega

lemma trainEpoch_rng_lt (upd : UpdOracle) (permO : ℕ → ℕ → List ℕ)
    (data prior : Arr) (bs spe : ℕ) (c : MState × ℕ × List ℝ) :
    c.2.1 < (trainEpoch upd permO data prior bs spe c).2.1 := by
  have h := innerStep_fold_rng_le upd data prior
    (epochBatches permO (splitKey c.2.1).2 (nrows data) bs spe)
    (c.1, (splitKey c.2.1).1, c.2.2)
  have h2 : c.2.1 < (splitKey c.2.1).1 := by
    simp only [splitKey]
    omega
  exact lt_of_lt_of_le h2 h

lemma epochStep_rng_lt (upd : UpdOracle) (permO : ℕ → ℕ → List ℕ)
    (data prior : Arr) (bs spe : ℕ) (c : MState × ℕ × List ℝ) (k : ℕ) :
    c.2.1 < (epochStep upd permO data prior bs spe c k).2.1 := by
  simp only [epochStep]
  split
  · exact trainEpoch_rng_lt upd permO data prior bs spe c
  · exact trainEpoch_rng_lt upd permO data prior bs spe c

lemma epochsFold_rng_le (upd : UpdOracle) (permO : ℕ → ℕ → List ℕ)
    (data prior : Arr) (bs spe : ℕ) :
    ∀ (ks : List ℕ) (c : MState × ℕ × List ℝ),
      c.2.1 ≤ ((ks.foldl (epochStep upd permO data prior bs spe) c).2).1 := by
  intro ks
  induction ks with
  | nil => intro c; exact le_refl _
  | cons k ks ih =>
    intro c
    rw [List.foldl_cons]
    exact le_trans (le_of_lt (epochStep_rng_lt upd permO data prior bs spe c k)) (ih _)

lemma trainEpochsRun_rng_lt (upd : UpdOracle) (permO : ℕ → ℕ → List ℕ)
    (data prior : Arr) (bs spe : ℕ) (kw : TrainKw) (s0 : MState) (rng0 : ℕ)
    (h : 1 ≤ kw.n_epochs) :
    rng0 < (trainEpochsRun upd permO data prior bs spe kw s0 rng0).2 := by
  have hne : List.range kw.n_epochs ≠ [] := by
    simp only [ne_eq, List.range_eq_nil]
    omega
  show rng0 < ((List.range kw.n_epochs).foldl
      (epochStep upd permO data prior bs spe) (s0, rng0, [])).2.1
  cases hks : List.range kw.n_epochs with
  | nil => exact absurd hks hne
  | cons k ks =>
    rw [List.foldl_cons]
    exact lt_of_lt_of_le
      (epochStep_rng_lt upd permO data prior bs spe (s0, rng0, []) k)
      (epochsFold_rng_le upd permO data prior bs spe ks _)

/-- Claim C3 (amended): `sample_prior` and each training epoch derive a
fresh sub-stream from the stored key and advance it (the stored key
strictly increases through the training loop, so no sub-stream recurs
within training), and runs are deterministic functions of the starting
state; but `DiffusionModel.predict`/`reverse_sde` consume sub-streams
derived from the stored key WITHOUT advancing it — `predict` returns the
instance unchanged, so an immediately repeated `predict` reuses the same
sub-streams and reproduces the same output (the original claim's "no
sub-stream is ever reused across operations" fails; see the
counterexample). -/
theorem C3_rng_advancement {n d : ℕ} (mT : DiffusionModelT n d)
    (normal : ℕ → Batch n d) (x0 : Batch n d) (hist : Bool) (f : ScoreFn n d)
    (upd : UpdOracle) (permO : ℕ → ℕ → List ℕ) (priorPool : Option Arr)
    (data : Arr) (kw : TrainKw) (s0 : MState) (rng0 : ℕ)
    (hf : mT.predictFn = some f) (hep : 1 ≤ kw.n_epochs)
    (hbs : min kw.batch_size (nrows data) ≠ 0) :
    (sample_prior mT normal).2.base.rng = (splitKey mT.base.rng).1
      ∧ mT.base.rng < (splitKey mT.base.rng).1
      ∧ (∃ r, trainLoopD upd permO priorPool data kw s0 rng0 = .ok r ∧ rng0 < r.2)
      ∧ predictT mT normal x0 hist
          = .ok (predictCore mT.base f normal x0 hist, mT)
      ∧ ∀ y m2, predictT mT normal x0 hist = .ok (y, m2) →
          predictT m2 normal x0 hist = .ok (y, m2) := by
  have hp : predictT mT normal x0 hist
      = .ok (predictCore mT.base f normal x0 hist, mT) := by
    simp [predictT, hf]
  refine ⟨rfl, ?_, ?_, hp, ?_⟩
  · simp only [splitKey]
    omega
  · exact ⟨_, trainLoopD_eq_ok upd permO priorPool data kw s0 rng0 hbs,
      trainEpochsRun_rng_lt upd permO data _ _ _ kw s0 rng0 hep⟩
  · intro y m2 h
    rw [hp] at h
    injection h with h2
    injection h2 with hy hm
    subst hy
    subst hm
    exact hp

/-- Witness for C3: the concrete trained instance `mT0`, zero oracles, and
a one-epoch training run. -/
theorem C3_rng_advancement_witness :
    (sample_prior mT0 zeroNormal).2.base.rng = (splitKey mT0.base.rng).1
      ∧ mT0.base.rng < (splitKey mT0.base.rng).1
      ∧ ∃ r, trainLoopD upd0 perm0 none [[0]] kwSmall s3 0 = .ok r ∧ 0 < r.2 := by
  have h := C3_rng_advancement mT0 zeroNormal (zeroBatch 1 1) false zeroScore
    upd0 perm0 none [[0]] kwSmall s3 0 rfl (by norm_num [kwSmall]) (by decide)
  exact ⟨h.1, h.2.1, h.2.2.1⟩

/-- Counterexample to C3 as stated: `predict` consumes randomness (here
one integration step draws one noise sub-stream) yet returns the instance
with its stored key unchanged — the stored random state is not advanced,
so a following `predict` derives the very same sub-streams. -/
theorem C3_counterexample :
    (predictT mT0 zeroNormal (zeroBatch 1 1) false).map (fun p => p.2.base.rng)
        = .ok mT0.base.rng
      ∧ 0 < (scanParams mT0.base).length := by
  constructor
  · rfl
  · rw [scanParams_length]
    norm_num [mT0, mSteps3]

/-- Claim C8 (amended): calling `predict` before any `train` call fails
eagerly at the call boundary — `train` is what binds the `_predict`
attribute, so the lookup fails before the integrator runs, independently
of the inputs — but the failure is Python's `AttributeError`, not an
`UninitializedStateError` (no such class exists in the source). -/
theorem C8_predict_before_train {n d : ℕ} (m : DiffusionModelT n d)
    (normal : ℕ → Batch n d) (x0 : Batch n d) (hist : Bool)
    (h : m.predictFn = none) :
    predictT m normal x0 hist = .error .attributeError
      ∧ (DiffusionModelT.fresh n d m.base.steps).predictFn = none := by
  constructor
  · simp [predictT, h]
  · rfl

/-- Witness for C8: a freshly constructed 1×1 instance with the default
1000 steps. -/
theorem C8_predict_before_train_witness :
    predictT (DiffusionModelT.fresh 1 1 1000) zeroNormal (zeroBatch 1 1) false
        = .error .attributeError
      ∧ (DiffusionModelT.fresh 1 1 1000).predictFn = none :=
  C8_predict_before_train (DiffusionModelT.fresh 1 1 1000) zeroNormal
    (zeroBatch 1 1) false rfl

/-- Counterexample to C8 as stated: the error raised on the fresh instance
is not `UninitializedStateError`. -/
theorem C8_counterexample :
    predictT (DiffusionModelT.fresh 1 1 1000) zeroNormal (zeroBatch 1 1) false
      ≠ .error .uninitializedStateError := by
  have h : predictT (DiffusionModelT.fresh 1 1 1000) zeroNormal (zeroBatch 1 1) false
      = .error .attributeError := rfl
  rw [h]
  simp

/-- Claim C4 (amended): a subsequent `train` call performs no
dimensionality check: it unconditionally overwrites `ndims` with the new
data's last-axis size and returns normally — no `ShapeMismatchError` is
raised (the class does not exist in the source) — while, absent a restart,
the trainable state keeps parameters initialised for the old
dimensionality. -/
theorem C4_no_dimensionality_guard (upd : UpdOracle) (permO : ℕ → ℕ → List ℕ)
    (initO : ℕ → ℕ → ℕ × ℕ) (priorPool : Option Arr) (m : DiffusionModelD)
    (data : Arr) (kw : TrainKw) (s : MState)
    (hs : m.state = some s) (hr : kw.restart = false)
    (hbs : min kw.batch_size (nrows data) ≠ 0) :
    ∃ m2, train upd permO initO priorPool m data kw = .ok m2
      ∧ m2.ndims = some (lastDim data)
      ∧ ∃ s2, m2.state = some s2 ∧ s2.pdim = s.pdim := by
  have hloop := trainLoopD_eq_ok upd permO priorPool data kw s m.rng hbs
  have htrain : train upd permO initO priorPool m data kw
      = .ok ⟨m.steps, m.beta_min, m.beta_max,
          (trainEpochsRun upd permO data (priorPool.getD (zeros_like data))
            (min kw.batch_size (nrows data))
            (nrows data / min kw.batch_size (nrows data)) kw s m.rng).2,
          some (lastDim data),
          some (trainEpochsRun upd permO data (priorPool.getD (zeros_like data))
            (min kw.batch_size (nrows data))
            (nrows data / min kw.batch_size (nrows data)) kw s m.rng).1, true⟩ := by
    simp [train, hs, hr, hloop, Except.map]
  exact ⟨_, htrain, rfl, _, rfl,
    trainEpochsRun_pdim upd permO data _ _ _ kw s m.rng⟩

/-- Witness for C4: the instance `mD3` whose first training call
established `ndims = 3` (parameters initialised for dimension 3), trained
again on a 5-column row: the call returns normally with `ndims = 5` and
the parameters still of dimension 3. -/
theorem C4_no_dimensionality_guard_witness :
    ∃ m2, train upd0 perm0 init0 none mD3 [[0, 0, 0, 0, 0]] kwSmall = .ok m2
      ∧ m2.ndims = some 5
      ∧ ∃ s2, m2.state = some s2 ∧ s2.pdim = 3 :=
  C4_no_dimensionality_guard upd0 perm0 init0 none mD3 [[0, 0, 0, 0, 0]] kwSmall
    s3 rfl rfl (by decide)

/-- Counterexample to C4 as stated: training the freshly built instance on
3-column data and then on 5-column data raises nothing — the chained call
returns normally with `ndims` silently overwritten to 5, instead of the
claimed `ShapeMismatchError`. -/
theorem C4_counterexample :
    ((train upd0 perm0 init0 none (DiffusionModelD.fresh 1000) [[0, 0, 0]] kwSmall).bind
        (fun m1 => train upd0 perm0 init0 none m1 [[0, 0, 0, 0, 0]] kwSmall)).map
      (fun m2 => m2.ndims) = .ok (some 5) := rfl

lemma epochBatches_row_length (permO : ℕ → ℕ → List ℕ) (key n bs : ℕ)
    (hperm : (permO key n).length = n) :
    ∀ row ∈ epochBatches permO key n bs (n / bs), row.length = bs := by
  intro row hrow
  simp only [epochBatches, List.mem_map, List.mem_range] at hrow
  obtain ⟨r, hr, rfl⟩ := hrow
  rw [List.length_take, List.length_drop, List.length_take, hperm]
  have h1 : (n / bs) * bs ≤ n := Nat.div_mul_le_self n bs
  have h2 : (r + 1) * bs ≤ (n / bs) * bs := mul_le_mul_right' (by omega) bs
  have h3 : r * bs + bs ≤ (n / bs) * bs := by
    calc r * bs + bs = (r + 1) * bs := by ring
    _ ≤ (n / bs) * bs := h2
  omega

lemma train_ok (upd : UpdOracle) (permO : ℕ → ℕ → List ℕ) (initO : ℕ → ℕ → ℕ × ℕ)
    (priorPool : Option Arr) (m : DiffusionModelD) (data : Arr) (kw : TrainKw)
    (hbs : min kw.batch_size (nrows data) ≠ 0) :
    (train upd permO initO priorPool m data kw).isOk = true := by
  cases hm : m.state with
  | none =>
    simp [train, hm, initState, trainLoopD, hbs, Except.map, Except.isOk,
      Except.toBool]
  | some s =>
    cases hres : kw.restart
    · simp [train, hm, hres, trainLoopD, hbs, Except.map, Except.isOk,
        Except.toBool]
    · simp [train, hm, hres, initState, trainLoopD, hbs, Except.map, Except.isOk,
        Except.toBool]

/-- Claim C9 (amended): for every train call with requested batch size
greater than the (nonzero) number of data rows, the effective batch size
is silently clamped to the row count — `min(batch_size, train_size) =
train_size` — training completes without error, and every minibatch index
row built in every epoch has exactly the clamped number of entries (under
the JAX contract that the permutation of `train_size` indices has length
`train_size`).  (The original unrestricted claim fails on an empty data
batch, which its "batch_size greater than the number of rows" includes:
there the clamp yields 0 and `steps_per_epoch = train_size // batch_size`
raises `ZeroDivisionError`; see the counterexample.) -/
theorem C9_batch_size_clamped (upd : UpdOracle) (permO : ℕ → ℕ → List ℕ)
    (initO : ℕ → ℕ → ℕ × ℕ) (priorPool : Option Arr) (m : DiffusionModelD)
    (data : Arr) (kw : TrainKw)
    (hperm : ∀ key sz, (permO key sz).length = sz)
    (hn : 1 ≤ nrows data) (hgt : nrows data < kw.batch_size) :
    min kw.batch_size (nrows data) = nrows data
      ∧ (train upd permO initO priorPool m data kw).isOk = true
      ∧ ∀ key row,
          row ∈ epochBatches permO key (nrows data) (min kw.batch_size (nrows data))
              (nrows data / min kw.batch_size (nrows data)) →
            row.length = min kw.batch_size (nrows data) := by
  have hmin : min kw.batch_size (nrows data) = nrows data :=
    min_eq_right (le_of_lt hgt)
  refine ⟨hmin, train_ok upd permO initO priorPool m data kw (by omega), ?_⟩
  exact fun key row h =>
    epochBatches_row_length permO key (nrows data)
      (min kw.batch_size (nrows data)) (hperm key (nrows data)) row h

set_option maxRecDepth 4000 in
/-- Witness for C9: requesting batch size 1000 on 200 data rows trains
without error with every minibatch of size `min 1000 200 = 200`. -/
theorem C9_batch_size_clamped_witness :
    (min 1000 (nrows data200) = nrows data200
      ∧ (train upd0 perm0 init0 none (DiffusionModelD.fresh 1000) data200 kw1000).isOk
          = true
      ∧ ∀ key row,
          row ∈ epochBatches perm0 key (nrows data200) (min 1000 (nrows data200))
              (nrows data200 / min 1000 (nrows data200)) →
            row.length = min 1000 (nrows data200))
      ∧ min 1000 (nrows data200) = 200 := by
  have h200 : nrows data200 = 200 := by
    rw [nrows, data200, List.length_replicate]
  constructor
  · exact C9_batch_size_clamped upd0 perm0 init0 none (DiffusionModelD.fresh 1000)
      data200 kw1000 (fun key sz => by simp [perm0]) (by omega)
      (by rw [h200]; decide)
  · rw [h200]
    decide

/-- Counterexample to C9 as stated: on an empty data batch the requested
batch size 128 exceeds the 0 data rows, the clamp yields
`min(128, 0) = 0`, and `steps_per_epoch = train_size // batch_size` raises
`ZeroDivisionError` — training does not complete without error. -/
theorem C9_counterexample :
    train upd0 perm0 init0 none (DiffusionModelD.fresh 1000) ([] : Arr) kwSmall
      = .error .zeroDivisionError := rfl

end Fusions
